import Mathlib

/-!
Verification of the reverse-proxy cache policy declared by the NGINX
configuration in TUTORIAL.md (final configuration, the default.conf shown
there).  The configuration declares:

  proxy_cache_path ... keys_zone=STATIC:10m inactive=7d ...
  server-level: proxy_set_header Upgrade / Connection / Host,
                proxy_cache_bypass on a non-empty Upgrade header
  location /_next/static : proxy_cache STATIC (no validity period:
      entries stay until inactivity eviction); adds X-Cache-Status
  location /static : proxy_cache STATIC; proxy_ignore_headers
      Cache-Control; proxy_cache_valid 60m; adds X-Cache-Status
  location / : plain proxy_pass, no caching, no X-Cache-Status

The cache engine itself is the external NGINX binary, which is not part of
this repository; its request-handling behaviour is modelled from the
specification document (sections 3, 4 and 7), while the route table, the
validity and inactivity windows and the placement of the cache-status
header are transcribed from the configuration shown in TUTORIAL.md.
-/

namespace NginxCache

/-- An inbound HTTP request: method, path, query string, headers. -/
structure Request where
  method : String
  path : String
  query : String
  headers : List (String × String)
deriving DecidableEq, Repr

/-- An HTTP response: status code, headers, body. -/
structure Response where
  status : Nat
  headers : List (String × String)
  body : String
deriving DecidableEq, Repr

/-- First value bound to a header name, or the empty string. -/
def headerVal (hs : List (String × String)) (n : String) : String :=
  match hs.find? (fun h => h.fst == n) with
  | some h => h.snd
  | none => ""

/-- Replace (or insert) a header binding, as proxy_set_header does. -/
def setHeader (hs : List (String × String)) (n v : String) :
    List (String × String) :=
  (n, v) :: hs.filter (fun h => !(h.fst == n))

/-- The request actually sent upstream: the server block sets the Host,
Upgrade and Connection headers via proxy_set_header before proxying. -/
def forwardHeaders (hs : List (String × String)) : List (String × String) :=
  setHeader (setHeader (setHeader hs "Upgrade" (headerVal hs "Upgrade")) "Connection" "upgrade") "Host" (headerVal hs "Host")

/-- The request actually sent upstream, with the rewritten headers. -/
def forwardRequest (req : Request) : Request :=
  { req with headers := forwardHeaders req.headers }

/-- Whether the inbound request carries a protocol upgrade, the condition
of the server-wide proxy_cache_bypass directive. -/
def upgradeRequested (req : Request) : Bool :=
  headerVal req.headers "Upgrade" != ""

/-- Caching policy of a route, as declared per location block. -/
inductive CachePolicy where
  | noCache
  | cacheIndefinite
  | cacheFixed (validSeconds : Nat)
deriving DecidableEq, Repr

/-- A location block: matched path, caching policy, and whether the block
adds the X-Cache-Status response header. -/
structure RouteRule where
  routePath : String
  policy : CachePolicy
  addCacheStatusHeader : Bool
deriving DecidableEq, Repr

/-- inactive=7d on the proxy_cache_path directive, in seconds. -/
def inactiveSeconds : Nat := 7 * 24 * 60 * 60

/-- proxy_cache_valid 60m in the /static block, in seconds. -/
def staticValiditySeconds : Nat := 60 * 60

/-- location /_next/static : cached with no validity period. -/
def nextStaticRoute : RouteRule :=
  { routePath := "/_next/static", policy := .cacheIndefinite,
    addCacheStatusHeader := true }

/-- location /static : cached for 60 minutes, Cache-Control ignored. -/
def staticRoute : RouteRule :=
  { routePath := "/static", policy := .cacheFixed staticValiditySeconds,
    addCacheStatusHeader := true }

/-- location / : plain passthrough to the upstream. -/
def catchAllRoute : RouteRule :=
  { routePath := "/", policy := .noCache, addCacheStatusHeader := false }

/-- The three location blocks of the final configuration. -/
def routes : List RouteRule := [nextStaticRoute, staticRoute, catchAllRoute]

/-- Does the string s start with the given literal piece. -/
def startsWithStr (s piece : String) : Bool :=
  piece.data.isPrefixOf s.data

/-- Longest matching location, NGINX prefix-location selection. -/
def bestRoute (p : String) : List RouteRule → Option RouteRule
  | [] => none
  | r :: rs =>
    let rest := bestRoute p rs
    if startsWithStr p r.routePath then
      match rest with
      | none => some r
      | some b =>
        if b.routePath.length ≤ r.routePath.length then some r else some b
    else rest

/-- Route selected for a request path (catch-all when nothing matches). -/
def matchRoute (p : String) : RouteRule :=
  (bestRoute p routes).getD catchAllRoute

/-- Modelled from the spec: the cache key of a request, computed from the
method plus the path with the query string included, independent of the
headers (the configuration sets no proxy_cache_key directive; the engine
computing the key is the external NGINX binary, absent from this
repository, so the key shape follows the specification document). -/
def cacheKey (req : Request) : String × String × String :=
  (req.method, req.path, req.query)

/-- A cache key together with its tuple type. -/
abbrev CacheKey := String × String × String

/-- Modelled from the spec: a stored cache entry with the stored response,
its creation time, the end of its validity window (none when the route
sets no validity period) and the time of its last access. -/
structure CacheEntry where
  resp : Response
  created : Nat
  validUntil : Option Nat
  lastAccess : Nat
deriving DecidableEq, Repr

/-- Modelled from the spec: the cache store as a key-value association. -/
abbrev CacheStore := List (CacheKey × CacheEntry)

/-- Entry stored under a key, if any. -/
def storeGet (s : CacheStore) (k : CacheKey) : Option CacheEntry :=
  match s.find? (fun x => decide (x.fst = k)) with
  | some x => some x.snd
  | none => none

/-- Store an entry under a key, replacing any previous entry. -/
def storePut (s : CacheStore) (k : CacheKey) (e : CacheEntry) : CacheStore :=
  (k, e) :: s.filter (fun x => !(decide (x.fst = k)))

/-- Refresh the last-access time of the entry under a key. -/
def touch (s : CacheStore) (k : CacheKey) (now : Nat) : CacheStore :=
  s.map (fun x => if x.fst = k then (x.fst, { x.snd with lastAccess := now }) else x)

/-- Modelled from the spec: an entry unused past the inactivity window
(inactive=7d) is evicted, regardless of its validity window. -/
def entryInactive (now : Nat) (e : CacheEntry) : Bool :=
  e.lastAccess + inactiveSeconds < now

/-- Is the entry still inside its validity window at this time. -/
def entryValid (now : Nat) (e : CacheEntry) : Bool :=
  match e.validUntil with
  | none => true
  | some t => now < t

/-- Outcome of a cache lookup. -/
inductive Lookup where
  | absent
  | valid (e : CacheEntry)
  | expired (e : CacheEntry)
deriving DecidableEq, Repr

/-- Modelled from the spec: look a key up, treating an entry past its
inactivity deadline as absent (lazy eviction, one of the two eviction
designs the specification allows). -/
def lookup (now : Nat) (s : CacheStore) (k : CacheKey) : Lookup :=
  match storeGet s k with
  | none => .absent
  | some e =>
    if entryInactive now e then .absent
    else if entryValid now e then .valid e
    else .expired e

/-- True when the lookup outcome requires an origin fetch. -/
def needsFetch : Lookup → Bool
  | .valid _ => false
  | _ => true

/-- Observable cache status, the values of X-Cache-Status. -/
inductive CacheStatus where
  | MISS
  | HIT
  | EXPIRED
  | BYPASS
deriving DecidableEq, Repr

/-- Header value written for a cache status. -/
def CacheStatus.toHeaderValue : CacheStatus → String
  | .MISS => "MISS"
  | .HIT => "HIT"
  | .EXPIRED => "EXPIRED"
  | .BYPASS => "BYPASS"

/-- Append a header binding to a response. -/
def addHeader (r : Response) (n v : String) : Response :=
  { r with headers := r.headers ++ [(n, v)] }

/-- Add the X-Cache-Status header when the location block declares it. -/
def addStatus (rule : RouteRule) (st : CacheStatus) (r : Response) : Response :=
  if rule.addCacheStatusHeader then addHeader r "X-Cache-Status" st.toHeaderValue
  else r

/-- Modelled from the spec: response sent when the origin is unreachable. -/
def gatewayError : Response :=
  { status := 502, headers := [], body := "Bad Gateway" }

/-- Modelled from the spec: a successful origin response (2xx). -/
def isSuccess (r : Response) : Bool :=
  200 ≤ r.status && r.status < 300

/-- Validity window an entry stored now receives under a policy. -/
def validityFor (p : CachePolicy) (now : Nat) : Option Nat :=
  match p with
  | .noCache => none
  | .cacheIndefinite => none
  | .cacheFixed v => some (now + v)

/-- Result of handling one request: the response to the caller, the new
cache store, whether the origin was contacted, and the cache status
recorded for the request (none on the passthrough route). -/
structure StepResult where
  resp : Response
  store : CacheStore
  originCalled : Bool
  status : Option CacheStatus
deriving Repr

/-- Modelled from the spec: fetch from the origin and, when storeIt is set
and the response is successful, store it with the validity the route rule
assigns, ignoring any cache-control-style header of the origin response. -/
def cachedFetch (origin : Request → Option Response) (now : Nat)
    (s : CacheStore) (req : Request) (rule : RouteRule) (st : CacheStatus)
    (storeIt : Bool) : StepResult :=
  match origin (forwardRequest req) with
  | none => { resp := addStatus rule st gatewayError, store := s, originCalled := true, status := some st }
  | some r =>
    { resp := addStatus rule st r,
      store :=
        if storeIt && isSuccess r then
          storePut s (cacheKey req)
            { resp := r, created := now, validUntil := validityFor rule.policy now, lastAccess := now }
        else s,
      originCalled := true,
      status := some st }

/-- Modelled from the spec: handling on a caching location block.  An
upgrade request bypasses the cache and is not stored; otherwise the store
is consulted: a valid entry is served as HIT without contacting the
origin, a missing or inactivity-evicted entry is fetched as MISS, an
expired entry is refetched as EXPIRED. -/
def handleCached (origin : Request → Option Response) (now : Nat)
    (s : CacheStore) (req : Request) (rule : RouteRule) : StepResult :=
  if upgradeRequested req then
    cachedFetch origin now s req rule .BYPASS false
  else
    match lookup now s (cacheKey req) with
    | .valid e =>
      { resp := addStatus rule .HIT e.resp, store := touch s (cacheKey req) now,
        originCalled := false, status := some .HIT }
    | .absent => cachedFetch origin now s req rule .MISS true
    | .expired _ => cachedFetch origin now s req rule .EXPIRED true

/-- Modelled from the spec: handle one request.  The route is selected by
longest-prefix match; the catch-all route forwards to the origin without
touching the cache and without adding any header; caching routes follow
the cache policy. -/
def handle (origin : Request → Option Response) (now : Nat)
    (s : CacheStore) (req : Request) : StepResult :=
  let rule := matchRoute req.path
  match rule.policy with
  | .noCache =>
    match origin (forwardRequest req) with
    | none => { resp := gatewayError, store := s, originCalled := true, status := none }
    | some r => { resp := r, store := s, originCalled := true, status := none }
  | .cacheIndefinite => handleCached origin now s req rule
  | .cacheFixed _ => handleCached origin now s req rule

/-- Store reached after handling the same request a number of times. -/
def repeatHandle (origin : Request → Option Response) (now : Nat)
    (req : Request) : Nat → CacheStore → CacheStore
  | 0, s => s
  | n + 1, s => repeatHandle origin now req n (handle origin now s req).store

/-- The isPrefixOf boolean agrees with the list-prefix order. -/
theorem isPrefixOf_eq_true (l1 l2 : List Char) :
    l1.isPrefixOf l2 = true ↔ l1 <+: l2 := by
  induction l1 generalizing l2 with
  | nil => simp [List.isPrefixOf, List.nil_prefix]
  | cons a as ih =>
    cases l2 with
    | nil => simp [List.isPrefixOf]
    | cons b bs =>
      simp [List.isPrefixOf, List.cons_prefix_cons, ih, Bool.and_eq_true,
        beq_iff_eq]

/-- Prefix-of-a-prefix: startsWithStr is transitive. -/
theorem startsWithStr_trans {p b a : String} (h1 : startsWithStr p b = true)
    (h2 : startsWithStr b a = true) : startsWithStr p a = true := by
  simp only [startsWithStr] at h1 h2 ⊢
  exact (isPrefixOf_eq_true _ _).mpr
    (((isPrefixOf_eq_true _ _).mp h2).trans ((isPrefixOf_eq_true _ _).mp h1))

/-- A path under /_next/static is not under /static. -/
theorem not_static_of_nextStatic {p : String}
    (h : startsWithStr p "/_next/static" = true) :
    startsWithStr p "/static" = false := by
  simp only [startsWithStr] at h ⊢
  obtain ⟨t, ht⟩ := (isPrefixOf_eq_true _ _).mp h
  rw [← ht]
  simp [List.isPrefixOf]

/-- A path under /static is not under /_next/static. -/
theorem not_nextStatic_of_static {p : String}
    (h : startsWithStr p "/static" = true) :
    startsWithStr p "/_next/static" = false := by
  simp only [startsWithStr] at h ⊢
  obtain ⟨t, ht⟩ := (isPrefixOf_eq_true _ _).mp h
  rw [← ht]
  simp [List.isPrefixOf]

/-- Paths under /_next/static select the /_next/static location. -/
theorem matchRoute_nextStatic {p : String}
    (h : startsWithStr p "/_next/static" = true) :
    matchRoute p = nextStaticRoute := by
  have h1 : startsWithStr p "/" = true := startsWithStr_trans h (by decide)
  have h2 : startsWithStr p "/static" = false := not_static_of_nextStatic h
  simp [matchRoute, bestRoute, routes, nextStaticRoute, staticRoute,
    catchAllRoute, h, h1, h2]
  decide

/-- Paths under /static select the /static location. -/
theorem matchRoute_static {p : String}
    (h : startsWithStr p "/static" = true) :
    matchRoute p = staticRoute := by
  have h1 : startsWithStr p "/" = true := startsWithStr_trans h (by decide)
  have h2 : startsWithStr p "/_next/static" = false := not_nextStatic_of_static h
  simp [matchRoute, bestRoute, routes, nextStaticRoute, staticRoute,
    catchAllRoute, h, h1, h2]
  decide

/-- Every other path selects the catch-all location. -/
theorem matchRoute_catchAll {p : String}
    (h2 : startsWithStr p "/_next/static" = false)
    (h3 : startsWithStr p "/static" = false) :
    matchRoute p = catchAllRoute := by
  cases h1 : startsWithStr p "/" <;>
    simp [matchRoute, bestRoute, routes, nextStaticRoute, staticRoute,
      catchAllRoute, h1, h2, h3]

/-- Reading back a key just stored returns the stored entry. -/
theorem storeGet_storePut_same (s : CacheStore) (k : CacheKey) (e : CacheEntry) :
    storeGet (storePut s k e) k = some e := by
  simp [storeGet, storePut, List.find?]

/-- Adding the status header does not change the status code. -/
theorem addStatus_status (rule : RouteRule) (st : CacheStatus) (r : Response) :
    (addStatus rule st r).status = r.status := by
  unfold addStatus addHeader
  split <;> rfl

/-- Adding the status header does not change the body. -/
theorem addStatus_body (rule : RouteRule) (st : CacheStatus) (r : Response) :
    (addStatus rule st r).body = r.body := by
  unfold addStatus addHeader
  split <;> rfl

/-- Searching for one header name ignores a filter on a different name. -/
theorem find_header_filter (hs : List (String × String)) (n m : String)
    (hnm : (m == n) = false) :
    List.find? (fun h => h.fst == m) (hs.filter (fun h => !(h.fst == n))) =
    List.find? (fun h => h.fst == m) hs := by
  induction hs with
  | nil => rfl
  | cons x t ih =>
    by_cases hn : (x.fst == n) = true
    · have hxn : x.fst = n := eq_of_beq hn
      have hm : (x.fst == m) = false := by
        cases hbm : x.fst == m
        · rfl
        · exact absurd (hxn ▸ beq_iff_eq.mpr (eq_of_beq hbm).symm) (by simp [hnm])
      simp [List.filter_cons, hn, List.find?, hm, ih]
    · have hn' : (x.fst == n) = false := by simpa using hn
      cases hm : x.fst == m <;> simp [List.filter_cons, hn', List.find?, hm, ih]

/-- Reading the header just set returns the value set. -/
theorem headerVal_setHeader_same (hs : List (String × String)) (n v : String) :
    headerVal (setHeader hs n v) n = v := by
  simp [headerVal, setHeader, List.find?]

/-- Setting one header leaves the others unchanged. -/
theorem headerVal_setHeader_other (hs : List (String × String)) (n v m : String)
    (hnm : (m == n) = false) :
    headerVal (setHeader hs n v) m = headerVal hs m := by
  have hn : (n == m) = false := by
    cases h : n == m
    · rfl
    · exact absurd (beq_iff_eq.mpr (eq_of_beq h).symm) (by simp [hnm])
  simp [headerVal, setHeader, List.find?, hn, find_header_filter hs n m hnm]

/-- On a path under /static the handler runs the caching branch with the
/static location block. -/
theorem handle_static_eq (origin : Request → Option Response) (now : Nat)
    (s : CacheStore) (req : Request)
    (hp : startsWithStr req.path "/static" = true) :
    handle origin now s req = handleCached origin now s req staticRoute := by
  unfold handle
  rw [matchRoute_static hp]
  rfl

/-- On a path under /_next/static the handler runs the caching branch with
the /_next/static location block. -/
theorem handle_nextStatic_eq (origin : Request → Option Response) (now : Nat)
    (s : CacheStore) (req : Request)
    (hp : startsWithStr req.path "/_next/static" = true) :
    handle origin now s req = handleCached origin now s req nextStaticRoute := by
  unfold handle
  rw [matchRoute_nextStatic hp]
  rfl

/-- The fetch-and-store branch of a caching location: on a non-upgrade
request whose lookup does not produce a valid entry, a successful origin
response is stored with the validity the rule assigns and the recorded
status is MISS or EXPIRED. -/
theorem handleCached_fetch (origin : Request → Option Response) (now : Nat)
    (s : CacheStore) (req : Request) (rule : RouteRule) (r : Response)
    (hu : upgradeRequested req = false)
    (hl : needsFetch (lookup now s (cacheKey req)) = true)
    (ho : origin (forwardRequest req) = some r)
    (hsc : isSuccess r = true) :
    (handleCached origin now s req rule).store =
      storePut s (cacheKey req)
        { resp := r, created := now, validUntil := validityFor rule.policy now,
          lastAccess := now } ∧
    (handleCached origin now s req rule).resp.body = r.body ∧
    (handleCached origin now s req rule).resp.status = r.status ∧
    ((handleCached origin now s req rule).status = some .MISS ∨
      (handleCached origin now s req rule).status = some .EXPIRED) ∧
    (handleCached origin now s req rule).originCalled = true := by
  cases hlk : lookup now s (cacheKey req) with
  | valid e => rw [hlk] at hl; simp [needsFetch] at hl
  | absent =>
    simp [handleCached, hu, hlk, cachedFetch, ho, hsc, addStatus_body,
      addStatus_status]
  | expired e =>
    simp [handleCached, hu, hlk, cachedFetch, ho, hsc, addStatus_body,
      addStatus_status]

/-- On the catch-all location the handler forwards and leaves the store
untouched. -/
theorem handle_catchAll_step (origin : Request → Option Response) (now : Nat)
    (s : CacheStore) (req : Request)
    (h2 : startsWithStr req.path "/_next/static" = false)
    (h3 : startsWithStr req.path "/static" = false) :
    (handle origin now s req).store = s ∧
    (handle origin now s req).originCalled = true := by
  have hm := matchRoute_catchAll h2 h3
  unfold handle
  rw [hm]
  cases origin (forwardRequest req) <;> simp [catchAllRoute]

/-- A sample successful origin response carrying a cache-control-style
header that forbids storage. -/
def okResp : Response :=
  { status := 200, headers := [("Cache-Control", "no-store")], body := "body-v1" }

/-- A second, different successful origin response. -/
def okResp2 : Response :=
  { status := 200, headers := [], body := "body-v2" }

/-- A sample origin error response. -/
def errResp : Response :=
  { status := 500, headers := [], body := "server error" }

/-- An origin that always answers with the given response. -/
def constOrigin (r : Response) : Request → Option Response :=
  fun _ => some r

/-- An unreachable origin. -/
def deadOrigin : Request → Option Response :=
  fun _ => none

/-- A header-free GET request for a path. -/
def plainReq (p : String) : Request :=
  { method := "GET", path := p, query := "", headers := [] }

/-- A GET request carrying a protocol-upgrade header. -/
def upgradeReq (p : String) : Request :=
  { method := "GET", path := p, query := "", headers := [("Upgrade", "websocket")] }

/-- C5: the route rule with the longest matching path prefix is selected:
paths under /_next/static and /static select their caching rules, every
other path selects the catch-all rule, whose policy is passthrough. -/
theorem routeSelection_longestMatch (p : String) :
    (startsWithStr p "/_next/static" = true → matchRoute p = nextStaticRoute) ∧
    (startsWithStr p "/static" = true → matchRoute p = staticRoute) ∧
    (startsWithStr p "/_next/static" = false → startsWithStr p "/static" = false →
      matchRoute p = catchAllRoute ∧ (matchRoute p).policy = .noCache) :=
  ⟨matchRoute_nextStatic, matchRoute_static, fun h2 h3 =>
    ⟨matchRoute_catchAll h2 h3, by rw [matchRoute_catchAll h2 h3]; rfl⟩⟩

/-- Witness for C5 at three concrete paths. -/
theorem routeSelection_longestMatch_witness :
    matchRoute "/_next/static/chunk.js" = nextStaticRoute ∧
    matchRoute "/static/logo.png" = staticRoute ∧
    matchRoute "/about" = catchAllRoute :=
  ⟨(routeSelection_longestMatch "/_next/static/chunk.js").1 (by decide),
   (routeSelection_longestMatch "/static/logo.png").2.1 (by decide),
   ((routeSelection_longestMatch "/about").2.2 (by decide) (by decide)).1⟩

/-- C6: a request on the catch-all route reaches the origin and its
response is never written to the cache store, for any number of
repetitions of the request. -/
theorem noCacheRoute_neverStored (origin : Request → Option Response)
    (now : Nat) (s : CacheStore) (req : Request)
    (h2 : startsWithStr req.path "/_next/static" = false)
    (h3 : startsWithStr req.path "/static" = false) :
    (handle origin now s req).originCalled = true ∧
    (handle origin now s req).store = s ∧
    ∀ n, repeatHandle origin now req n s = s := by
  refine ⟨(handle_catchAll_step origin now s req h2 h3).2,
    (handle_catchAll_step origin now s req h2 h3).1, ?_⟩
  intro n
  induction n with
  | zero => rfl
  | succ m ih =>
    simp [repeatHandle, (handle_catchAll_step origin now s req h2 h3).1, ih]

/-- Witness for C6 on a concrete page path. -/
theorem noCacheRoute_neverStored_witness :
    (handle (constOrigin okResp) 0 [] (plainReq "/about")).originCalled = true ∧
    (handle (constOrigin okResp) 0 [] (plainReq "/about")).store = [] ∧
    repeatHandle (constOrigin okResp) 0 (plainReq "/about") 3 [] = [] := by
  have h := noCacheRoute_neverStored (constOrigin okResp) 0 []
    (plainReq "/about") (by decide) (by decide)
  exact ⟨h.1, h.2.1, h.2.2 3⟩

/-- C7: the cache key is the method plus path with query string, so it is
independent of the request headers, and two requests differing only in
headers query the same cache entry. -/
theorem cacheKey_ignores_headers (r1 r2 : Request) (now : Nat) (s : CacheStore)
    (hm : r1.method = r2.method) (hp : r1.path = r2.path)
    (hq : r1.query = r2.query) :
    cacheKey r1 = (r1.method, r1.path, r1.query) ∧
    cacheKey r1 = cacheKey r2 ∧
    lookup now s (cacheKey r1) = lookup now s (cacheKey r2) := by
  simp [cacheKey, hm, hp, hq]

/-- Witness for C7: two requests equal but for their headers. -/
theorem cacheKey_ignores_headers_witness :
    cacheKey (plainReq "/static/logo.png") =
      cacheKey (upgradeReq "/static/logo.png") ∧
    lookup 5 [] (cacheKey (plainReq "/static/logo.png")) =
      lookup 5 [] (cacheKey (upgradeReq "/static/logo.png")) := by
  have h := cacheKey_ignores_headers (plainReq "/static/logo.png")
    (upgradeReq "/static/logo.png") 5 [] rfl rfl rfl
  exact ⟨h.2.1, h.2.2⟩

/-- C1: a successful origin response on the /static route is stored with
the fixed 60-minute validity window, whatever cache-control-style headers
the origin response carries, and the recorded status is MISS or EXPIRED. -/
theorem staticRoute_storesFixedValidity (origin : Request → Option Response)
    (now : Nat) (s : CacheStore) (req : Request) (r : Response)
    (hp : startsWithStr req.path "/static" = true)
    (hu : upgradeRequested req = false)
    (hl : needsFetch (lookup now s (cacheKey req)) = true)
    (ho : origin (forwardRequest req) = some r)
    (hsc : isSuccess r = true) :
    storeGet (handle origin now s req).store (cacheKey req) =
      some { resp := r, created := now,
             validUntil := some (now + staticValiditySeconds),
             lastAccess := now } ∧
    ((handle origin now s req).status = some .MISS ∨
      (handle origin now s req).status = some .EXPIRED) := by
  have hfetch := handleCached_fetch origin now s req staticRoute r hu hl ho hsc
  constructor
  · rw [handle_static_eq origin now s req hp, hfetch.1, storeGet_storePut_same]
    rfl
  · rw [handle_static_eq origin now s req hp]
    exact hfetch.2.2.2.1

/-- Witness for C1: the origin response says no-store, the entry is stored
for sixty minutes anyway. -/
theorem staticRoute_storesFixedValidity_witness :
    storeGet (handle (constOrigin okResp) 0 [] (plainReq "/static/app.css")).store
        (cacheKey (plainReq "/static/app.css")) =
      some { resp := okResp, created := 0,
             validUntil := some (0 + staticValiditySeconds), lastAccess := 0 } ∧
    ((handle (constOrigin okResp) 0 [] (plainReq "/static/app.css")).status =
        some .MISS ∨
      (handle (constOrigin okResp) 0 [] (plainReq "/static/app.css")).status =
        some .EXPIRED) :=
  staticRoute_storesFixedValidity (constOrigin okResp) 0 []
    (plainReq "/static/app.css") okResp (by decide) (by decide) (by decide)
    rfl (by decide)

/-- C2: within the validity window the stored response is served as HIT
without contacting the origin; a second identical request returns the
first body even when the origin has changed in the meantime. -/
theorem hitWithinValidity_servesStored
    (origin1 origin2 : Request → Option Response) (t0 t1 : Nat)
    (s : CacheStore) (req : Request) (r : Response)
    (hp : startsWithStr req.path "/static" = true)
    (hu : upgradeRequested req = false)
    (hl : needsFetch (lookup t0 s (cacheKey req)) = true)
    (ho : origin1 (forwardRequest req) = some r)
    (hsc : isSuccess r = true)
    (ht : t1 < t0 + staticValiditySeconds) :
    (handle origin1 t0 s req).resp.body = r.body ∧
    (handle origin2 t1 (handle origin1 t0 s req).store req).originCalled = false ∧
    (handle origin2 t1 (handle origin1 t0 s req).store req).status = some .HIT ∧
    (handle origin2 t1 (handle origin1 t0 s req).store req).resp.body = r.body := by
  have hfetch := handleCached_fetch origin1 t0 s req staticRoute r hu hl ho hsc
  have hs1 : (handle origin1 t0 s req).store =
      storePut s (cacheKey req)
        { resp := r, created := t0,
          validUntil := some (t0 + staticValiditySeconds), lastAccess := t0 } := by
    rw [handle_static_eq origin1 t0 s req hp]
    exact hfetch.1
  have hb1 : (handle origin1 t0 s req).resp.body = r.body := by
    rw [handle_static_eq origin1 t0 s req hp]
    exact hfetch.2.1
  have ht' : t1 < t0 + 3600 := by simpa [staticValiditySeconds] using ht
  have hni : ¬ (t0 + 604800 < t1) := by omega
  have hlk : lookup t1 (handle origin1 t0 s req).store (cacheKey req) =
      .valid { resp := r, created := t0,
               validUntil := some (t0 + staticValiditySeconds),
               lastAccess := t0 } := by
    rw [hs1]
    simp [lookup, storeGet_storePut_same, entryInactive, entryValid,
      inactiveSeconds, staticValiditySeconds, hni, ht']
  refine ⟨hb1, ?_, ?_, ?_⟩ <;>
    rw [handle_static_eq origin2 t1 ((handle origin1 t0 s req).store) req hp] <;>
    simp [handleCached, hu, hlk, addStatus_body]

/-- Witness for C2: second request ten seconds later, origin changed. -/
theorem hitWithinValidity_servesStored_witness :
    (handle (constOrigin okResp) 0 [] (plainReq "/static/app.css")).resp.body =
      okResp.body ∧
    (handle (constOrigin okResp2) 10
      (handle (constOrigin okResp) 0 [] (plainReq "/static/app.css")).store
      (plainReq "/static/app.css")).originCalled = false ∧
    (handle (constOrigin okResp2) 10
      (handle (constOrigin okResp) 0 [] (plainReq "/static/app.css")).store
      (plainReq "/static/app.css")).status = some .HIT ∧
    (handle (constOrigin okResp2) 10
      (handle (constOrigin okResp) 0 [] (plainReq "/static/app.css")).store
      (plainReq "/static/app.css")).resp.body = okResp.body :=
  hitWithinValidity_servesStored (constOrigin okResp) (constOrigin okResp2)
    0 10 [] (plainReq "/static/app.css") okResp (by decide) (by decide)
    (by decide) rfl (by decide) (by decide)

/-- C3: a request finding its entry past the validity window goes back to
the origin, the entry content is replaced and its timestamps are reset,
and the recorded status is EXPIRED (or MISS when the entry had also gone
inactive). -/
theorem expiredEntry_refetched (origin : Request → Option Response)
    (now : Nat) (s : CacheStore) (req : Request) (e : CacheEntry) (r : Response)
    (hp : startsWithStr req.path "/static" = true)
    (hu : upgradeRequested req = false)
    (hg : storeGet s (cacheKey req) = some e)
    (hv : entryValid now e = false)
    (ho : origin (forwardRequest req) = some r)
    (hsc : isSuccess r = true) :
    (handle origin now s req).originCalled = true ∧
    ((handle origin now s req).status = some .EXPIRED ∨
      (handle origin now s req).status = some .MISS) ∧
    storeGet (handle origin now s req).store (cacheKey req) =
      some { resp := r, created := now,
             validUntil := some (now + staticValiditySeconds),
             lastAccess := now } := by
  have hl : needsFetch (lookup now s (cacheKey req)) = true := by
    cases hi : entryInactive now e <;> simp [lookup, hg, hv, hi, needsFetch]
  have hfetch := handleCached_fetch origin now s req staticRoute r hu hl ho hsc
  refine ⟨?_, ?_, ?_⟩
  · rw [handle_static_eq origin now s req hp]
    exact hfetch.2.2.2.2
  · rw [handle_static_eq origin now s req hp]
    exact (hfetch.2.2.2.1).symm
  · rw [handle_static_eq origin now s req hp, hfetch.1, storeGet_storePut_same]
    rfl

/-- An entry stored at time zero whose validity ended at 3600. -/
def staleEntry : CacheEntry :=
  { resp := okResp, created := 0, validUntil := some 3600, lastAccess := 0 }

/-- A store holding only the stale entry for the sample asset. -/
def staleStore : CacheStore :=
  [(cacheKey (plainReq "/static/app.css"), staleEntry)]

/-- Witness for C3: at time 4000 the stale entry is refreshed. -/
theorem expiredEntry_refetched_witness :
    (handle (constOrigin okResp2) 4000 staleStore
      (plainReq "/static/app.css")).originCalled = true ∧
    ((handle (constOrigin okResp2) 4000 staleStore
        (plainReq "/static/app.css")).status = some .EXPIRED ∨
      (handle (constOrigin okResp2) 4000 staleStore
        (plainReq "/static/app.css")).status = some .MISS) ∧
    storeGet (handle (constOrigin okResp2) 4000 staleStore
        (plainReq "/static/app.css")).store
        (cacheKey (plainReq "/static/app.css")) =
      some { resp := okResp2, created := 4000,
             validUntil := some (4000 + staticValiditySeconds),
             lastAccess := 4000 } :=
  expiredEntry_refetched (constOrigin okResp2) 4000 staleStore
    (plainReq "/static/app.css") staleEntry okResp2 (by decide) (by decide)
    (by decide) (by decide) rfl (by decide)

/-- C4: an entry of either cached path family unused past the inactivity
window is absent from the store, and the next request for its key is a
cold MISS reaching the origin, even when the entry is still inside its
validity window. -/
theorem inactiveEntry_coldMiss (origin : Request → Option Response)
    (now : Nat) (s : CacheStore) (req : Request) (e : CacheEntry)
    (hroute : startsWithStr req.path "/_next/static" = true ∨
      startsWithStr req.path "/static" = true)
    (hu : upgradeRequested req = false)
    (hg : storeGet s (cacheKey req) = some e)
    (hin : entryInactive now e = true)
    (_hv : entryValid now e = true) :
    lookup now s (cacheKey req) = .absent ∧
    (handle origin now s req).status = some .MISS ∧
    (handle origin now s req).originCalled = true := by
  have hlk : lookup now s (cacheKey req) = .absent := by simp [lookup, hg, hin]
  have key : ∀ rule : RouteRule,
      (handleCached origin now s req rule).status = some .MISS ∧
      (handleCached origin now s req rule).originCalled = true := by
    intro rule
    cases o : origin (forwardRequest req) <;>
      simp [handleCached, hu, hlk, cachedFetch, o]
  refine ⟨hlk, ?_⟩
  cases hroute with
  | inl h =>
    rw [handle_nextStatic_eq origin now s req h]
    exact key nextStaticRoute
  | inr h =>
    rw [handle_static_eq origin now s req h]
    exact key staticRoute

/-- An unbounded-validity entry last used at time zero. -/
def idleEntry : CacheEntry :=
  { resp := okResp, created := 0, validUntil := none, lastAccess := 0 }

/-- A store holding only the idle entry for a /_next/static asset. -/
def idleStore : CacheStore :=
  [(cacheKey (plainReq "/_next/static/chunk.js"), idleEntry)]

/-- Witness for C4: one second past the seven-day inactivity window the
unbounded-validity entry is gone and the request is a cold MISS. -/
theorem inactiveEntry_coldMiss_witness :
    lookup 604801 idleStore (cacheKey (plainReq "/_next/static/chunk.js")) =
      .absent ∧
    (handle (constOrigin okResp2) 604801 idleStore
      (plainReq "/_next/static/chunk.js")).status = some .MISS ∧
    (handle (constOrigin okResp2) 604801 idleStore
      (plainReq "/_next/static/chunk.js")).originCalled = true :=
  inactiveEntry_coldMiss (constOrigin okResp2) 604801 idleStore
    (plainReq "/_next/static/chunk.js") idleEntry (Or.inl (by decide))
    (by decide) (by decide) (by decide) (by decide)

/-- C8 counterexample: on the catch-all route the configuration has no
add_header directive, so the response is returned exactly as the origin
sent it, with no X-Cache-Status header: not every response carries a
cache-status value. -/
theorem catchAll_lacks_cacheStatus_header :
    (handle (constOrigin okResp) 0 [] (plainReq "/about")).resp = okResp ∧
    ((handle (constOrigin okResp) 0 [] (plainReq "/about")).resp.headers.find?
      (fun h => h.fst == "X-Cache-Status")) = none := by
  constructor
  · rfl
  · rfl

/-- Every caching location block records a status and appends the matching
X-Cache-Status header to the response it returns. -/
theorem handleCached_adds_header (origin : Request → Option Response)
    (now : Nat) (s : CacheStore) (req : Request) (rule : RouteRule)
    (hh : rule.addCacheStatusHeader = true) :
    ∃ st : CacheStatus, (handleCached origin now s req rule).status = some st ∧
      ("X-Cache-Status", st.toHeaderValue) ∈
        (handleCached origin now s req rule).resp.headers := by
  cases hu : upgradeRequested req
  case true =>
    refine ⟨.BYPASS, ?_⟩
    cases o : origin (forwardRequest req) <;>
      simp [handleCached, hu, cachedFetch, o, addStatus, addHeader, hh]
  case false =>
    cases hlk : lookup now s (cacheKey req)
    case valid e =>
      refine ⟨.HIT, ?_⟩
      simp [handleCached, hu, hlk, addStatus, addHeader, hh]
    case absent =>
      refine ⟨.MISS, ?_⟩
      cases o : origin (forwardRequest req) <;>
        simp [handleCached, hu, hlk, cachedFetch, o, addStatus, addHeader, hh]
    case expired e =>
      refine ⟨.EXPIRED, ?_⟩
      cases o : origin (forwardRequest req) <;>
        simp [handleCached, hu, hlk, cachedFetch, o, addStatus, addHeader, hh]

/-- C8 amended: responses on the two caching routes carry the
X-Cache-Status header with a value among MISS, HIT, EXPIRED and BYPASS;
responses on the catch-all passthrough route are returned unmodified,
with no cache-status header added. -/
theorem cacheStatus_header_placement (origin : Request → Option Response)
    (now : Nat) (s : CacheStore) (req : Request) :
    ((startsWithStr req.path "/_next/static" = true ∨
        startsWithStr req.path "/static" = true) →
      ∃ st : CacheStatus, (handle origin now s req).status = some st ∧
        ("X-Cache-Status", st.toHeaderValue) ∈
          (handle origin now s req).resp.headers) ∧
    (startsWithStr req.path "/_next/static" = false →
      startsWithStr req.path "/static" = false →
      ∀ r, origin (forwardRequest req) = some r →
        (handle origin now s req).resp = r) := by
  constructor
  · rintro (h | h)
    · rw [handle_nextStatic_eq origin now s req h]
      exact handleCached_adds_header origin now s req nextStaticRoute rfl
    · rw [handle_static_eq origin now s req h]
      exact handleCached_adds_header origin now s req staticRoute rfl
  · intro h2 h3 r ho
    unfold handle
    rw [matchRoute_catchAll h2 h3]
    simp [catchAllRoute, ho]

/-- Witness for the amended C8 at two concrete requests. -/
theorem cacheStatus_header_placement_witness :
    ("X-Cache-Status", "MISS") ∈
      (handle (constOrigin okResp) 0 [] (plainReq "/static/app.css")).resp.headers ∧
    (handle (constOrigin okResp) 0 [] (plainReq "/page")).resp = okResp := by
  constructor
  · obtain ⟨st, hst, hmem⟩ :=
      (cacheStatus_header_placement (constOrigin okResp) 0 []
        (plainReq "/static/app.css")).1 (Or.inr (by decide))
    have hc : (handle (constOrigin okResp) 0 []
        (plainReq "/static/app.css")).status = some CacheStatus.MISS := by decide
    have hstm : st = CacheStatus.MISS := by
      have := hc.symm.trans hst
      exact (Option.some.inj this).symm
    rw [hstm] at hmem
    exact hmem
  · exact (cacheStatus_header_placement (constOrigin okResp) 0 []
      (plainReq "/page")).2 (by decide) (by decide) okResp rfl

/-- An origin fetch that fails keeps the status and does not store. -/
theorem cachedFetch_failure (origin : Request → Option Response)
    (now : Nat) (s : CacheStore) (req : Request) (rule : RouteRule)
    (st : CacheStatus) (storeIt : Bool) :
    (∀ r, origin (forwardRequest req) = some r → isSuccess r = false →
      (cachedFetch origin now s req rule st storeIt).resp.status = r.status ∧
      (cachedFetch origin now s req rule st storeIt).store = s) ∧
    (origin (forwardRequest req) = none →
      (cachedFetch origin now s req rule st storeIt).resp.status =
        gatewayError.status ∧
      (cachedFetch origin now s req rule st storeIt).store = s) := by
  constructor
  · intro r ho hfail
    simp [cachedFetch, ho, hfail, addStatus_status]
  · intro ho
    simp [cachedFetch, ho, addStatus_status]

/-- On a caching location, a consulted-and-failed origin fetch keeps the
status and leaves the store unchanged. -/
theorem handleCached_failure (origin : Request → Option Response)
    (now : Nat) (s : CacheStore) (req : Request) (rule : RouteRule)
    (hcall : (handleCached origin now s req rule).originCalled = true) :
    (∀ r, origin (forwardRequest req) = some r → isSuccess r = false →
      (handleCached origin now s req rule).resp.status = r.status ∧
      (handleCached origin now s req rule).store = s) ∧
    (origin (forwardRequest req) = none →
      (handleCached origin now s req rule).resp.status = gatewayError.status ∧
      (handleCached origin now s req rule).store = s) := by
  cases hu : upgradeRequested req
  case true =>
    have hgoal : handleCached origin now s req rule =
        cachedFetch origin now s req rule .BYPASS false := by
      simp [handleCached, hu]
    rw [hgoal]
    exact cachedFetch_failure origin now s req rule .BYPASS false
  case false =>
    cases hlk : lookup now s (cacheKey req)
    case valid e =>
      exfalso
      simp [handleCached, hu, hlk] at hcall
    case absent =>
      have hgoal : handleCached origin now s req rule =
          cachedFetch origin now s req rule .MISS true := by
        simp [handleCached, hu, hlk]
      rw [hgoal]
      exact cachedFetch_failure origin now s req rule .MISS true
    case expired e =>
      have hgoal : handleCached origin now s req rule =
          cachedFetch origin now s req rule .EXPIRED true := by
        simp [handleCached, hu, hlk]
      rw [hgoal]
      exact cachedFetch_failure origin now s req rule .EXPIRED true

/-- C9: for a request whose origin fetch fails, the origin status (or the
gateway error for an unreachable origin) is what the caller receives, and
the cache store is unchanged; the handler is a total function, so the
failure is local to the request. -/
theorem originFailure_noStore (origin : Request → Option Response)
    (now : Nat) (s : CacheStore) (req : Request)
    (hc : (handle origin now s req).originCalled = true) :
    (∀ r, origin (forwardRequest req) = some r → isSuccess r = false →
      (handle origin now s req).resp.status = r.status ∧
      (handle origin now s req).store = s) ∧
    (origin (forwardRequest req) = none →
      (handle origin now s req).resp.status = gatewayError.status ∧
      (handle origin now s req).store = s) := by
  rcases hpol : (matchRoute req.path).policy with _ | _ | v
  · constructor
    · intro r ho hfail
      constructor <;> simp [handle, hpol, ho]
    · intro ho
      constructor <;> simp [handle, hpol, ho]
  · simp only [handle, hpol] at hc ⊢
    exact handleCached_failure origin now s req (matchRoute req.path) hc
  · simp only [handle, hpol] at hc ⊢
    exact handleCached_failure origin now s req (matchRoute req.path) hc

/-- Witness for C9: an origin error on a cached path and an unreachable
origin on a passthrough path. -/
theorem originFailure_noStore_witness :
    (handle (constOrigin errResp) 0 [] (plainReq "/static/app.css")).resp.status =
      errResp.status ∧
    (handle (constOrigin errResp) 0 [] (plainReq "/static/app.css")).store = [] ∧
    (handle deadOrigin 0 [] (plainReq "/page")).resp.status =
      gatewayError.status ∧
    (handle deadOrigin 0 [] (plainReq "/page")).store = [] := by
  have h1 := originFailure_noStore (constOrigin errResp) 0 []
    (plainReq "/static/app.css") (by decide)
  have h2 := originFailure_noStore deadOrigin 0 [] (plainReq "/page") (by decide)
  exact ⟨(h1.1 errResp rfl (by decide)).1, (h1.1 errResp rfl (by decide)).2,
    (h2.2 rfl).1, (h2.2 rfl).2⟩

/-- C10: a protocol-upgrade request reaches the origin on every route with
the upgrade and connection headers forwarded, is never answered from the
cache and is never stored, the bypass directive being server-wide. -/
theorem upgradeRequest_bypasses (origin : Request → Option Response)
    (now : Nat) (s : CacheStore) (req : Request)
    (hu : upgradeRequested req = true) :
    (handle origin now s req).originCalled = true ∧
    (handle origin now s req).store = s ∧
    headerVal (forwardRequest req).headers "Upgrade" =
      headerVal req.headers "Upgrade" ∧
    headerVal (forwardRequest req).headers "Connection" = "upgrade" ∧
    ∀ r, origin (forwardRequest req) = some r →
      (handle origin now s req).resp.body = r.body := by
  have hup : headerVal (forwardRequest req).headers "Upgrade" =
      headerVal req.headers "Upgrade" := by
    unfold forwardRequest forwardHeaders
    rw [headerVal_setHeader_other _ "Host" _ "Upgrade" (by decide),
      headerVal_setHeader_other _ "Connection" _ "Upgrade" (by decide),
      headerVal_setHeader_same]
  have hconn : headerVal (forwardRequest req).headers "Connection" = "upgrade" := by
    unfold forwardRequest forwardHeaders
    rw [headerVal_setHeader_other _ "Host" _ "Connection" (by decide),
      headerVal_setHeader_same]
  have hbypass : ∀ rule : RouteRule,
      (handleCached origin now s req rule).originCalled = true ∧
      (handleCached origin now s req rule).store = s ∧
      ∀ r, origin (forwardRequest req) = some r →
        (handleCached origin now s req rule).resp.body = r.body := by
    intro rule
    refine ⟨?_, ?_, ?_⟩
    · cases o : origin (forwardRequest req) <;>
        simp [handleCached, hu, cachedFetch, o]
    · cases o : origin (forwardRequest req) <;>
        simp [handleCached, hu, cachedFetch, o]
    · intro r ho
      simp [handleCached, hu, cachedFetch, ho, addStatus_body]
  rcases hpol : (matchRoute req.path).policy with _ | _ | v
  · refine ⟨?_, ?_, hup, hconn, ?_⟩
    · cases o : origin (forwardRequest req) <;> simp [handle, hpol, o]
    · cases o : origin (forwardRequest req) <;> simp [handle, hpol, o]
    · intro r ho
      simp [handle, hpol, ho]
  · simp only [handle, hpol]
    exact ⟨(hbypass _).1, (hbypass _).2.1, hup, hconn, (hbypass _).2.2⟩
  · simp only [handle, hpol]
    exact ⟨(hbypass _).1, (hbypass _).2.1, hup, hconn, (hbypass _).2.2⟩

/-- Witness for C10: an upgrade request on a cached path with a currently
valid entry in the store still reaches the origin and stores nothing. -/
theorem upgradeRequest_bypasses_witness :
    (handle (constOrigin okResp2) 0 staleStore
      (upgradeReq "/static/app.css")).originCalled = true ∧
    (handle (constOrigin okResp2) 0 staleStore
      (upgradeReq "/static/app.css")).store = staleStore ∧
    headerVal (forwardRequest (upgradeReq "/static/app.css")).headers
      "Upgrade" = "websocket" ∧
    headerVal (forwardRequest (upgradeReq "/static/app.css")).headers
      "Connection" = "upgrade" ∧
    (handle (constOrigin okResp2) 0 staleStore
      (upgradeReq "/static/app.css")).resp.body = okResp2.body := by
  have h := upgradeRequest_bypasses (constOrigin okResp2) 0 staleStore
    (upgradeReq "/static/app.css") (by decide)
  exact ⟨h.1, h.2.1, h.2.2.1.trans (by decide), h.2.2.2.1,
    h.2.2.2.2 okResp2 rfl⟩

end NginxCache
